import Mathlib

/-!
Verification of the smart-home door access-control core.

The definitions below are a shallow embedding of the door service
(`src/services/door.service.js`), the MQTT event router
(`src/services/mqtt.service.js`), the door HTTP routes, and the
authentication model used by the property test-suite
(`tests/door-auth/door-auth.property.test.js`).

The SHA-256 digest function is treated as an abstract parameter
`sha256 : String → String`: no theorem below relies on any property of the
digest beyond it being a function, which is sound for both the real hash and
any stand-in used to evaluate the model on concrete inputs.
-/

namespace SmartHome

/-- JS `String.prototype.toUpperCase` restricted to ASCII letters, which is
how the repository uses it on hex-style RFID UIDs (written over the
character list so that it evaluates by kernel reduction). -/
def jsToUpperCase (s : String) : String := String.mk (s.data.map Char.toUpper)

/-- JS truthiness of an optional string value: `undefined`/`null` and the
empty string are falsy, every other string is truthy. -/
def strTruthy : Option String → Bool
  | none => false
  | some s => !(s == "")

/-- RfidCard lifecycle status, as in the Prisma schema. -/
inductive CardStatus
  | ACTIVE
  | REVOKED
deriving DecidableEq, Repr

/-- A user row (only the fields the door core reads). -/
structure User where
  id : Nat
  username : String
  role : String
deriving DecidableEq, Repr

/-- An RfidCard row. -/
structure RfidCard where
  id : Nat
  doorId : Nat
  userId : Nat
  uid : String
  uidHash : String
  status : CardStatus
deriving DecidableEq, Repr

/-- The singleton Door row (fields the door core reads and writes). -/
structure Door where
  id : Nat
  pinHash : String
  enrollmentMode : Bool
  enrollmentUserId : Option Nat
deriving DecidableEq, Repr

/-- A DoorAccessLog row; `timestamp` models the DB-assigned creation time. -/
structure AccessLog where
  doorId : Nat
  userId : Option Nat
  event : String
  rfidUid : Option String
  method : String
  timestamp : Nat
deriving DecidableEq, Repr

/-- The relational state the door core touches: the singleton door, the user
table, the card table and the append-only access log. -/
structure DB where
  door : Door
  users : List User
  cards : List RfidCard
  logs : List AccessLog
deriving DecidableEq, Repr

/-! ### Failed-Attempt Counter
From `FailedAttemptCounter` in `tests/door-auth/door-auth.property.test.js`. -/

/-- The fixed alarm threshold of the failed-attempt counter. -/
def alarmThreshold : Nat := 5

/-- `recordAttempt(success)`: reset to 0 on success, else increment by 1. -/
def recordAttempt (count : Nat) (success : Bool) : Nat :=
  if success then 0 else count + 1

/-- `shouldTriggerAlarm()`: true iff the count reached the threshold. -/
def shouldTriggerAlarm (count : Nat) : Bool :=
  decide (alarmThreshold ≤ count)

/-- Feed a whole sequence of attempt outcomes to a fresh counter. -/
def runAttempts (attempts : List Bool) : Nat :=
  attempts.foldl recordAttempt 0

/-- Spec-side reading of the counter: the number of consecutive `false`
outcomes since the most recent `true` (the trailing block of failures). -/
def specConsecutiveFailures (attempts : List Bool) : Nat :=
  (attempts.reverse.takeWhile (fun b => !b)).length

theorem runAttempts_append_single (l : List Bool) (b : Bool) :
    runAttempts (l ++ [b]) = recordAttempt (runAttempts l) b := by
  simp [runAttempts, List.foldl_append]

theorem runAttempts_eq_spec (l : List Bool) :
    runAttempts l = specConsecutiveFailures l := by
  induction l using List.reverseRecOn with
  | nil => rfl
  | append_singleton l b ih =>
    rw [runAttempts_append_single]
    cases b with
    | true =>
      simp [specConsecutiveFailures, recordAttempt]
    | false =>
      simp [specConsecutiveFailures, recordAttempt, List.takeWhile_cons] at *
      omega

/-- C2: after any finite boolean sequence of attempt outcomes, the counter
equals the number of consecutive failures since the most recent success
(0 right after any success), the alarm fires iff that count is at least 5,
a success after four failures leaves the alarm untriggered, and a fifth
consecutive failure triggers it.  Quantifying over all sequences settles the
property at every step, since each prefix is itself a sequence. -/
theorem failed_attempt_counter_correct (attempts : List Bool) :
    runAttempts attempts = specConsecutiveFailures attempts
    ∧ (shouldTriggerAlarm (runAttempts attempts) = true ↔
        5 ≤ specConsecutiveFailures attempts)
    ∧ shouldTriggerAlarm
        (runAttempts (attempts ++ [false, false, false, false, true])) = false
    ∧ shouldTriggerAlarm
        (runAttempts (attempts ++ [true, false, false, false, false, false])) = true := by
  refine ⟨runAttempts_eq_spec attempts, ?_, ?_, ?_⟩
  · rw [runAttempts_eq_spec]
    simp [shouldTriggerAlarm, alarmThreshold]
  · have h1 : attempts ++ [false, false, false, false, true] =
        (attempts ++ [false, false, false, false]) ++ [true] := by
      simp
    rw [h1, runAttempts_append_single]
    simp [recordAttempt, shouldTriggerAlarm, alarmThreshold]
  · rw [runAttempts_eq_spec]
    simp [specConsecutiveFailures, shouldTriggerAlarm, alarmThreshold,
      List.takeWhile_cons]

/-! ### Door service (`src/services/door.service.js`)
The `prisma` async calls become explicit state passing on `DB`; `findFirst`
becomes `List.find?`; `deleteMany` becomes `List.filter` with the negated
where-clause; `create` appends a row with a fresh id. -/

/-- `prisma.user.findUnique({ where: { id } })`. -/
def findUserById (db : DB) (userId : Nat) : Option User :=
  db.users.find? (fun u => u.id == userId)

/-- Resolve the username joined through a card's `userId` foreign key (the
`include: { user: ... }` of the Prisma queries).  A dangling foreign key,
impossible in the real schema, resolves to the empty string. -/
def lookupUsername (db : DB) (userId : Nat) : String :=
  ((findUserById db userId).map User.username).getD ""

/-- Model of the autoincrement id the database assigns to a freshly created
card row: strictly larger than every existing id. -/
def nextCardId (cards : List RfidCard) : Nat :=
  (cards.map RfidCard.id).foldr max 0 + 1

/-- Result object of `authenticateRfid` (fields are present exactly when the
JS object carries them). -/
structure RfidAuthResult where
  allowed : Bool
  reason : Option String
  userId : Option Nat
  username : Option String
  role : Option String
deriving DecidableEq, Repr

/-- `authenticateRfid(uidHash)`: look the digest up among all cards (any
status); no card means `unknown_card`, a REVOKED card means `card_revoked`
with the holder's identity, an ACTIVE card grants access. -/
def authenticateRfid (db : DB) (uidHash : String) : RfidAuthResult :=
  match db.cards.find? (fun c => c.uidHash == uidHash) with
  | none => ⟨false, some "unknown_card", none, none, none⟩
  | some card =>
    if card.status = CardStatus.REVOKED then
      ⟨false, some "card_revoked", some card.userId,
        (findUserById db card.userId).map User.username, none⟩
    else
      ⟨true, none, some card.userId,
        (findUserById db card.userId).map User.username,
        (findUserById db card.userId).map User.role⟩

/-- `getUserByRfidHash(uidHash)`: the holder of the ACTIVE card with that
digest, if any. -/
def getUserByRfidHash (db : DB) (uidHash : String) : Option User :=
  match db.cards.find? (fun c => c.uidHash == uidHash &&
      c.status == CardStatus.ACTIVE) with
  | none => none
  | some card => findUserById db card.userId

section WithHash

variable (sha256 : String → String)

/-- `createAccessLog({event, rfidUid, method, userId})`: when no user id is
given but a UID is, resolve the user through the ACTIVE card with the digest
of the uppercased UID; then append one immutable log row. -/
def createAccessLog (now : Nat) (db : DB) (event : String)
    (rfidUid : Option String) (method : String) (userId : Option Nat) :
    AccessLog × DB :=
  let resolved : Option Nat :=
    if userId.isNone && strTruthy rfidUid then
      (getUserByRfidHash db (sha256 (jsToUpperCase (rfidUid.getD "")))).map User.id
    else userId
  let entry : AccessLog := ⟨db.door.id, resolved, event, rfidUid, method, now⟩
  (entry, { db with logs := db.logs ++ [entry] })

/-- Result object of `processEnrollmentScan`. -/
structure EnrollScanResult where
  success : Bool
  error : Option String
  card : Option RfidCard
  message : Option String
deriving DecidableEq, Repr

/-- `processEnrollmentScan(uid)`: only acts when the door is in enrollment
mode with a target user; a conflicting ACTIVE card of another user aborts the
enrollment (door back to idle, nothing written); otherwise every matching
card of other users and every prior card of the target user is deleted, one
fresh ACTIVE card is created, the door leaves enrollment mode and one
`enrollment_success` log row is appended. -/
def processEnrollmentScan (now : Nat) (db : DB) (uid : String) :
    EnrollScanResult × DB :=
  match db.door.enrollmentMode, db.door.enrollmentUserId with
  | true, some userId =>
    let uidUpper := jsToUpperCase uid
    let uidHash := sha256 uidUpper
    match db.cards.find? (fun c => c.uidHash == uidHash &&
        c.status == CardStatus.ACTIVE && c.userId != userId) with
    | some existing =>
      (⟨false, some ("Thẻ đã được gán cho " ++ lookupUsername db existing.userId),
          none, none⟩,
        { db with door :=
            { db.door with enrollmentMode := false, enrollmentUserId := none } })
    | none =>
      let keptOthers := db.cards.filter
        (fun c => !(c.uidHash == uidHash && c.userId != userId))
      let keptAfterOwn := keptOthers.filter (fun c => !(c.userId == userId))
      let newCard : RfidCard :=
        ⟨nextCardId db.cards, db.door.id, userId, uidUpper, uidHash,
          CardStatus.ACTIVE⟩
      let logEntry : AccessLog :=
        ⟨db.door.id, some userId, "enrollment_success", some uidUpper,
          "enrollment", now⟩
      (⟨true, none, some newCard,
          some ("Đã đăng ký thẻ cho " ++ lookupUsername db userId)⟩,
        { db with
            cards := keptAfterOwn ++ [newCard],
            door :=
              { db.door with enrollmentMode := false, enrollmentUserId := none },
            logs := db.logs ++ [logEntry] })
  | _, _ => (⟨false, some "Không trong chế độ đăng ký", none, none⟩, db)

/-- `addRfidCard(userId, uid)`: manual admin card creation; rejected when the
user already has an ACTIVE card or the digest is already in ACTIVE use. -/
def addRfidCard (db : DB) (userId : Nat) (uid : String) :
    Except String (RfidCard × DB) :=
  if (db.cards.find? (fun c => c.userId == userId &&
      c.status == CardStatus.ACTIVE)).isSome then
    Except.error "Người dùng đã có thẻ RFID. Vui lòng thu hồi thẻ cũ trước."
  else
    let uidUpper := jsToUpperCase uid
    let uidHash := sha256 uidUpper
    if (db.cards.find? (fun c => c.uidHash == uidHash &&
        c.status == CardStatus.ACTIVE)).isSome then
      Except.error "UID thẻ đã được sử dụng"
    else
      let card : RfidCard :=
        ⟨nextCardId db.cards, db.door.id, userId, uidUpper, uidHash,
          CardStatus.ACTIVE⟩
      Except.ok (card, { db with cards := db.cards ++ [card] })

/-- `updateDoorPin(newPin, currentPin)`: reject when the digest of the
current PIN differs from the stored digest, else store the new digest. -/
def updateDoorPin (db : DB) (newPin currentPin : String) : Except String DB :=
  if db.door.pinHash != sha256 currentPin then
    Except.error "Mã PIN hiện tại không đúng"
  else
    Except.ok { db with door := { db.door with pinHash := sha256 newPin } }

end WithHash

/-- `revokeUserCard(userId)`: flip the user's ACTIVE card to REVOKED,
rejecting when there is none. -/
def revokeUserCard (db : DB) (userId : Nat) : Except String DB :=
  match db.cards.find? (fun c => c.userId == userId &&
      c.status == CardStatus.ACTIVE) with
  | none => Except.error "Người dùng không có thẻ RFID"
  | some card =>
    Except.ok { db with
      cards := db.cards.map (fun c =>
        if c.id == card.id then { c with status := CardStatus.REVOKED } else c) }

/-- `removeRfidCard(cardId)`: `prisma.rfidCard.update({where:{id}, data:
{status:'REVOKED'}})`, which errors when the row does not exist. -/
def removeRfidCard (db : DB) (cardId : Nat) : Except String DB :=
  if (db.cards.find? (fun c => c.id == cardId)).isSome then
    Except.ok { db with
      cards := db.cards.map (fun c =>
        if c.id == cardId then { c with status := CardStatus.REVOKED } else c) }
  else Except.error "Record to update not found."

/-! ### MQTT event router (`src/services/mqtt.service.js`) -/

/-- Inbound `door/rfid/auth` payload: either field may be absent. -/
structure RfidAuthPayload where
  uidHash : Option String
  uid : Option String
deriving DecidableEq, Repr

/-- Outbound `door/rfid/result` message (the `username` key is absent on the
`invalid_request` branch). -/
structure RfidResultMsg where
  uid : Option String
  allow : Bool
  username : Option String
  reason : Option String
  timestamp : Nat
deriving DecidableEq, Repr

/-- An alert row created through `alertService.createAlert`. -/
structure Alert where
  type : String
  level : String
  message : String
deriving DecidableEq, Repr

/-- The observable side effects of one inbound-message handler invocation:
outbound `door/rfid/result` messages, access-log rows written, alerts
raised, failed-attempt-counter feeds performed, and push notifications. -/
structure HandlerEffects where
  rfidResults : List RfidResultMsg
  logsWritten : List AccessLog
  alerts : List Alert
  counterFeeds : List Bool
  notifications : List String
deriving DecidableEq, Repr

section WithHash2

variable (sha256 : String → String)

/-- `handleRfidAuth(payload)`: with neither digest nor UID present, publish a
single `invalid_request` result and stop; otherwise authenticate the digest
(hashing the uppercased UID when only the UID is given), publish exactly one
result message, append exactly one access-log row, and push a notification
for denials other than `unknown_card`.  The handler touches no counter and
creates no alert. -/
def handleRfidAuth (now : Nat) (db : DB) (p : RfidAuthPayload) :
    HandlerEffects × DB :=
  if !(strTruthy p.uidHash) && !(strTruthy p.uid) then
    (⟨[⟨some (p.uid.getD ""), false, none, some "invalid_request", now⟩],
        [], [], [], []⟩, db)
  else
    let hash := if strTruthy p.uidHash then p.uidHash.getD ""
      else sha256 (jsToUpperCase (p.uid.getD ""))
    let result := authenticateRfid db hash
    let msg : RfidResultMsg :=
      ⟨p.uid, result.allowed, some (result.username.getD "Unknown"),
        result.reason, now⟩
    let logged := createAccessLog sha256 now db
      (if result.allowed then "access_granted" else "access_denied")
      (some (if strTruthy p.uid then p.uid.getD "" else "HASHED"))
      (result.reason.getD "rfid")
      result.userId
    let notifs := if !result.allowed && result.reason != some "unknown_card" then
        [(result.username.getD "Unknown") ++ " - " ++ (result.reason.getD "")]
      else []
    (⟨[msg], [logged.1], [], [], notifs⟩, logged.2)

/-! ### HTTP PIN route (`router.patch('/pin')` in the doors route file) -/

/-- The route's shape check on one field, as written in the handler:
`!pin || pin.length !== 4 || !/^\d+$/.test(pin)` (the regex accepts exactly
the nonempty all-digit strings). -/
def pinShapeBad : Option String → Bool
  | none => true
  | some s =>
    s == "" || s.length != 4 || !(s.length != 0 && s.data.all Char.isDigit)

/-- Spec-side predicate: the field is present and is exactly 4 decimal
digits. -/
def specFourDigits : Option String → Bool
  | none => false
  | some s => s.length == 4 && s.data.all Char.isDigit

/-- Everything the `PATCH /doors/pin` handler produces: the HTTP status, the
resulting store, the `door/config/pin` digests published, the alerts created
and the push notifications sent. -/
structure PatchPinOutcome where
  status : Nat
  error : Option String
  db : DB
  pinConfigMsgs : List String
  alerts : List Alert
  notifications : List String
deriving DecidableEq, Repr

/-- The `PATCH /doors/pin` handler: 400 on either malformed PIN field before
any digest work, 401 when the current PIN's digest mismatches, otherwise
store the new digest, publish it once on `door/config/pin`, create one INFO
alert and send one push notification. -/
def patchPinRoute (db : DB) (adminName : String)
    (pin currentPin : Option String) : PatchPinOutcome :=
  if pinShapeBad currentPin then
    ⟨400, some "Mã PIN hiện tại phải là 4 chữ số", db, [], [], []⟩
  else if pinShapeBad pin then
    ⟨400, some "Mã PIN mới phải là 4 chữ số", db, [], [], []⟩
  else
    match updateDoorPin sha256 db (pin.getD "") (currentPin.getD "") with
    | Except.error e =>
      if e == "Mã PIN hiện tại không đúng" then ⟨401, some e, db, [], [], []⟩
      else ⟨400, some e, db, [], [], []⟩
    | Except.ok db2 =>
      ⟨200, none, db2, [sha256 (pin.getD "")],
        [⟨"door", "INFO", "Mã PIN cửa đã được thay đổi bởi " ++ adminName⟩],
        [adminName ++ " đã thay đổi mã PIN cửa"]⟩

/-! ### PIN authentication model of the property test-suite
(`simulatePinAuth` in `tests/door-auth/door-auth.property.test.js`) -/

/-- Result of `simulatePinAuth`. -/
structure PinAuthResult where
  success : Bool
  shouldUnlock : Bool
  method : String
deriving DecidableEq, Repr

/-- `simulatePinAuth(inputPin, storedPinHash, rfidValidated)`: digest the
candidate and compare with the stored digest; the `rfidValidated` flag is
taken but never read. -/
def simulatePinAuth (inputPin storedPinHash : String)
    (rfidValidated : Bool) : PinAuthResult :=
  let isValid := sha256 inputPin == storedPinHash
  ⟨isValid, isValid, if isValid then "pin" else "invalid_pin"⟩

end WithHash2

/-! ### The at-most-one-ACTIVE invariant -/

/-- Two card rows do not collide: if both are ACTIVE they have different
holders and different digests. -/
def ActiveDistinct (a b : RfidCard) : Prop :=
  a.status = CardStatus.ACTIVE → b.status = CardStatus.ACTIVE →
    a.userId ≠ b.userId ∧ a.uidHash ≠ b.uidHash

instance : DecidableRel ActiveDistinct := fun a b => by
  unfold ActiveDistinct; infer_instance

theorem activeDistinct_symm : Symmetric ActiveDistinct := by
  intro a b h ha hb
  exact ⟨(h hb ha).1.symm, (h hb ha).2.symm⟩

/-- The card-table invariant: at most one ACTIVE card per user and at most
one ACTIVE card per UID digest. -/
def ActiveUnique (cards : List RfidCard) : Prop :=
  cards.Pairwise ActiveDistinct

instance (cards : List RfidCard) : Decidable (ActiveUnique cards) := by
  unfold ActiveUnique; infer_instance

/-! ### Helper lemmas -/

theorem find?_eq_some_of_unique {α : Type} {p : α → Bool} {l : List α} {a : α}
    (ha : a ∈ l) (hpa : p a = true)
    (huniq : ∀ b ∈ l, p b = true → b = a) :
    l.find? p = some a := by
  induction l with
  | nil => cases ha
  | cons x xs ih =>
    by_cases hx : p x = true
    · have hxa : x = a := huniq x (List.mem_cons_self x xs) hx
      subst hxa
      exact List.find?_cons_of_pos _ hx
    · rw [List.find?_cons_of_neg _ hx]
      apply ih
      · rcases List.mem_cons.mp ha with hh | hh
        · exact absurd (hh ▸ hpa) hx
        · exact hh
      · exact fun b hb hpb => huniq b (List.mem_cons_of_mem _ hb) hpb

/-! ### Claim theorems -/

/-- C1: `authenticateRfid(h)` returns `unknown_card` when no card carries the
digest, `card_revoked` with the holder's identity when the matching card is
REVOKED, and a grant with the holder's id, username and role when it is
ACTIVE; the result does not depend on the stored PIN digest in any way. -/
theorem authenticateRfid_taxonomy (db : DB) (h : String) :
    ((∀ c ∈ db.cards, c.uidHash ≠ h) →
      authenticateRfid db h = ⟨false, some "unknown_card", none, none, none⟩)
    ∧ (∀ card holder, card ∈ db.cards → card.uidHash = h →
        (∀ c ∈ db.cards, c.uidHash = h → c = card) →
        findUserById db card.userId = some holder →
        (card.status = CardStatus.REVOKED →
          authenticateRfid db h =
            ⟨false, some "card_revoked", some card.userId,
              some holder.username, none⟩)
        ∧ (card.status = CardStatus.ACTIVE →
          authenticateRfid db h =
            ⟨true, none, some card.userId, some holder.username,
              some holder.role⟩))
    ∧ (∀ ph, authenticateRfid
        { db with door := { db.door with pinHash := ph } } h
        = authenticateRfid db h) := by
  refine ⟨?_, ?_, fun ph => rfl⟩
  · intro hnone
    have : db.cards.find? (fun c => c.uidHash == h) = none := by
      rw [List.find?_eq_none]
      intro c hc
      simpa using hnone c hc
    simp [authenticateRfid, this]
  · intro card holder hmem hhash huniq hfind
    have hfound : db.cards.find? (fun c => c.uidHash == h) = some card := by
      apply find?_eq_some_of_unique hmem
      · simpa using hhash
      · intro b hb hpb
        exact huniq b hb (by simpa using hpb)
    constructor
    · intro hstat
      simp [authenticateRfid, hfound, hstat, hfind]
    · intro hstat
      simp [authenticateRfid, hfound, hstat, hfind]

/-- Sample store for the C1 witness: user bob holds a REVOKED card with
digest `h1`. -/
def dbC1 : DB :=
  { door := ⟨1, "ph", false, none⟩,
    users := [⟨2, "bob", "USER"⟩],
    cards := [⟨10, 1, 2, "AAAA", "h1", CardStatus.REVOKED⟩],
    logs := [] }

theorem authenticateRfid_taxonomy_witness :
    authenticateRfid dbC1 "h1" =
      ⟨false, some "card_revoked", some 2, some "bob", none⟩ :=
  ((authenticateRfid_taxonomy dbC1 "h1").2.1
    ⟨10, 1, 2, "AAAA", "h1", CardStatus.REVOKED⟩ ⟨2, "bob", "USER"⟩
    (by decide) (by decide) (by decide) (by decide)).1 (by decide)

/-- C7: the PIN authentication of the test model is a function of the
candidate PIN and the stored digest only: every field of the result is
unchanged by the prior-RFID-scan flag. -/
theorem simulatePinAuth_rfid_noninterference (sha256 : String → String)
    (inputPin storedPinHash : String) (b1 b2 : Bool) :
    (simulatePinAuth sha256 inputPin storedPinHash b1).success
        = (simulatePinAuth sha256 inputPin storedPinHash b2).success
    ∧ (simulatePinAuth sha256 inputPin storedPinHash b1).shouldUnlock
        = (simulatePinAuth sha256 inputPin storedPinHash b2).shouldUnlock
    ∧ (simulatePinAuth sha256 inputPin storedPinHash b1).method
        = (simulatePinAuth sha256 inputPin storedPinHash b2).method
    ∧ simulatePinAuth sha256 inputPin storedPinHash true
        = simulatePinAuth sha256 inputPin storedPinHash false :=
  ⟨rfl, rfl, rfl, rfl⟩

/-- C10: an RFID auth payload with neither `uidHash` nor `uid` produces
exactly one `door/rfid/result` message with `allow: false` and reason
`invalid_request`, writes no access-log row, and leaves the whole store
untouched. -/
theorem handleRfidAuth_invalid_request (sha256 : String → String)
    (now : Nat) (db : DB) :
    handleRfidAuth sha256 now db ⟨none, none⟩ =
      (⟨[⟨some "", false, none, some "invalid_request", now⟩],
          [], [], [], []⟩, db) := rfl

theorem authenticateRfid_reason_cases (db : DB) (h : String) :
    (authenticateRfid db h).reason = none
    ∨ (authenticateRfid db h).reason = some "unknown_card"
    ∨ (authenticateRfid db h).reason = some "card_revoked" := by
  unfold authenticateRfid
  cases db.cards.find? (fun c => c.uidHash == h) with
  | none => simp
  | some card =>
    by_cases hc : card.status = CardStatus.REVOKED <;> simp [hc]

/-- Sample store for the C3 counterexample: bob's card with digest equal to
its UID (the digest stand-in is the identity) is REVOKED, so the scan below
is a denied authentication evaluation. -/
def dbC3 : DB :=
  { door := ⟨1, "ph", false, none⟩,
    users := [⟨2, "bob", "USER"⟩],
    cards := [⟨10, 1, 2, "AAAA", "AAAA", CardStatus.REVOKED⟩],
    logs := [] }

/-- C3 counterexample: on this denied RFID authentication the handler feeds
nothing into any failed-attempt counter and raises no alert, refuting the
claim's "feeds the result into the Failed-Attempt Counter, raises a CRITICAL
alert if the counter now meets the alarm threshold": the backend keeps no
such counter — failure counting and alarm detection happen on the device and
reach the backend only through the separate `door/alarm` topic. -/
theorem handleRfidAuth_no_counter_cex :
    (handleRfidAuth (fun s => s) 0 dbC3 ⟨none, some "AAAA"⟩).1.rfidResults.map
        RfidResultMsg.allow = [false]
    ∧ (handleRfidAuth (fun s => s) 0 dbC3 ⟨none, some "AAAA"⟩).1.counterFeeds = []
    ∧ (handleRfidAuth (fun s => s) 0 dbC3 ⟨none, some "AAAA"⟩).1.alerts = [] := by
  decide

/-- C3 amended: for every inbound RFID authentication payload carrying a
`uid` or `uidHash`, the handler writes exactly one access-log row (event
`access_granted` when allowed, else `access_denied`, with a non-empty method
tag and a timestamp) and publishes exactly one outbound result message on
the device channel; it feeds no failed-attempt counter and raises no alert,
and it mutates nothing but the log. -/
theorem handleRfidAuth_amended (sha256 : String → String) (now : Nat)
    (db : DB) (p : RfidAuthPayload)
    (hval : (strTruthy p.uidHash || strTruthy p.uid) = true) :
    (handleRfidAuth sha256 now db p).1.rfidResults.length = 1
    ∧ (handleRfidAuth sha256 now db p).1.logsWritten.length = 1
    ∧ (∀ m ∈ (handleRfidAuth sha256 now db p).1.rfidResults,
        ∀ l ∈ (handleRfidAuth sha256 now db p).1.logsWritten,
          l.event = (if m.allow then "access_granted" else "access_denied")
          ∧ l.method ≠ "" ∧ l.timestamp = now ∧ m.timestamp = now)
    ∧ (handleRfidAuth sha256 now db p).1.alerts = []
    ∧ (handleRfidAuth sha256 now db p).1.counterFeeds = []
    ∧ (handleRfidAuth sha256 now db p).2.logs
        = db.logs ++ (handleRfidAuth sha256 now db p).1.logsWritten
    ∧ (handleRfidAuth sha256 now db p).2.cards = db.cards
    ∧ (handleRfidAuth sha256 now db p).2.door = db.door
    ∧ (handleRfidAuth sha256 now db p).2.users = db.users := by
  have hguard : (!(strTruthy p.uidHash) && !(strTruthy p.uid)) = false := by
    cases hu : strTruthy p.uidHash <;> cases hv : strTruthy p.uid <;>
      simp_all
  unfold handleRfidAuth
  rw [hguard]
  simp only [Bool.false_eq_true, if_false, createAccessLog]
  refine ⟨by trivial, by trivial, ?_, by trivial, by trivial, by trivial,
    by trivial, by trivial, by trivial⟩
  intro m hm l hl
  simp only [List.mem_singleton] at hm hl
  subst hm; subst hl
  refine ⟨rfl, ?_, rfl, rfl⟩
  rcases authenticateRfid_reason_cases db
      (if strTruthy p.uidHash then p.uidHash.getD ""
        else sha256 (jsToUpperCase (p.uid.getD ""))) with hr | hr | hr <;>
    simp [hr]

/-- C3 amended witness: a concrete denied authentication exercising the
amended theorem. -/
theorem handleRfidAuth_amended_witness :
    ((strTruthy (some "AAAA") || strTruthy (none : Option String)) = true)
    ∧ (handleRfidAuth (fun s => s) 0 dbC3
        ⟨some "AAAA", none⟩).1.logsWritten.length = 1 :=
  ⟨by decide,
    (handleRfidAuth_amended (fun s => s) 0 dbC3 ⟨some "AAAA", none⟩
      (by decide)).2.1⟩

/-- C4: a scan of UID `u` while enrolling for user `A`, when another user
`B` holds an ACTIVE card with the digest of the uppercased UID, fails naming
`B`, puts the door back to idle, and neither creates, deletes nor modifies
any card row — in particular `B`'s card is untouched. -/
theorem enrollment_conflict_aborts (sha256 : String → String) (now : Nat)
    (db : DB) (u : String) (A B : Nat) (b : RfidCard) (holder : User)
    (hMode : db.door.enrollmentMode = true)
    (hTarget : db.door.enrollmentUserId = some A)
    (hmem : b ∈ db.cards) (hbUser : b.userId = B) (hBA : B ≠ A)
    (hbStatus : b.status = CardStatus.ACTIVE)
    (hbHash : b.uidHash = sha256 (jsToUpperCase u))
    (hInv : ActiveUnique db.cards)
    (hHolder : findUserById db B = some holder) :
    (processEnrollmentScan sha256 now db u).1.success = false
    ∧ (processEnrollmentScan sha256 now db u).1.error
        = some ("Thẻ đã được gán cho " ++ holder.username)
    ∧ (processEnrollmentScan sha256 now db u).2.door.enrollmentMode = false
    ∧ (processEnrollmentScan sha256 now db u).2.door.enrollmentUserId = none
    ∧ (processEnrollmentScan sha256 now db u).2.cards = db.cards
    ∧ (processEnrollmentScan sha256 now db u).2.logs = db.logs := by
  have hpb : (fun c => c.uidHash == sha256 (jsToUpperCase u) &&
      c.status == CardStatus.ACTIVE && c.userId != A) b = true := by
    simp [hbHash, hbStatus, hbUser, hBA]
  have hsome : (db.cards.find? (fun c => c.uidHash == sha256 (jsToUpperCase u) &&
      c.status == CardStatus.ACTIVE && c.userId != A)).isSome := by
    rw [List.find?_isSome]
    exact ⟨b, hmem, hpb⟩
  obtain ⟨c, hc⟩ := Option.isSome_iff_exists.mp hsome
  have hcmem : c ∈ db.cards := List.mem_of_find?_eq_some hc
  have hcp := List.find?_some hc
  simp only [Bool.and_eq_true, beq_iff_eq, bne_iff_ne, ne_eq] at hcp
  have hcb : c = b := by
    by_contra hne
    have hdist := hInv.forall activeDistinct_symm hcmem hmem hne
    have := (hdist hcp.1.2 hbStatus).2
    exact this (hcp.1.1.trans hbHash.symm)
  simp only [processEnrollmentScan, hMode, hTarget, hc]
  subst hcb
  simp [lookupUsername, hbUser, hHolder]

/-- Sample store for the C4 witness: enrolling for user 7 while bob (user 2)
holds the ACTIVE card whose digest matches the scanned UID under the
identity digest stand-in. -/
def dbC4 : DB :=
  { door := ⟨1, "ph", true, some 7⟩,
    users := [⟨2, "bob", "USER"⟩, ⟨7, "eve", "USER"⟩],
    cards := [⟨10, 1, 2, "AAAA", "AAAA", CardStatus.ACTIVE⟩],
    logs := [] }

theorem enrollment_conflict_aborts_witness :
    (processEnrollmentScan (fun s => s) 0 dbC4 "aaaa").1.success = false
    ∧ (processEnrollmentScan (fun s => s) 0 dbC4 "aaaa").1.error
        = some ("Thẻ đã được gán cho " ++ "bob")
    ∧ (processEnrollmentScan (fun s => s) 0 dbC4 "aaaa").2.door.enrollmentMode
        = false
    ∧ (processEnrollmentScan (fun s => s) 0 dbC4 "aaaa").2.door.enrollmentUserId
        = none
    ∧ (processEnrollmentScan (fun s => s) 0 dbC4 "aaaa").2.cards = dbC4.cards
    ∧ (processEnrollmentScan (fun s => s) 0 dbC4 "aaaa").2.logs = dbC4.logs := by
  exact enrollment_conflict_aborts (fun s => s) 0 dbC4 "aaaa" 7 2
    ⟨10, 1, 2, "AAAA", "AAAA", CardStatus.ACTIVE⟩ ⟨2, "bob", "USER"⟩
    (by decide) (by decide) (by decide) (by decide) (by decide) (by decide)
    (by decide) (by decide) (by decide)

theorem le_foldr_max {l : List Nat} {x : Nat} (hx : x ∈ l) :
    x ≤ l.foldr max 0 := by
  induction l with
  | nil => cases hx
  | cons a t ih =>
    rcases List.mem_cons.mp hx with hh | hh
    · subst hh
      exact le_max_left _ _
    · exact le_trans (ih hh) (le_max_right _ _)

theorem id_lt_nextCardId {cards : List RfidCard} {c : RfidCard}
    (hc : c ∈ cards) : c.id < nextCardId cards := by
  have : c.id ≤ (cards.map RfidCard.id).foldr max 0 :=
    le_foldr_max (List.mem_map_of_mem _ hc)
  unfold nextCardId
  omega

/-- C5: a scan of UID `u` while enrolling for user `A`, when no other user
holds an ACTIVE card with the digest of the uppercased UID, removes every
other user's card sharing that digest (all REVOKED under the hypothesis) and
every prior card of `A`, keeps every other card, leaves exactly one card for
`A` — a fresh ACTIVE one with that UID and digest — appends exactly one
`enrollment_success` log row, and returns the door to idle. -/
theorem enrollment_success_path (sha256 : String → String) (now : Nat)
    (db : DB) (u : String) (A : Nat)
    (hMode : db.door.enrollmentMode = true)
    (hTarget : db.door.enrollmentUserId = some A)
    (hNoConflict : ∀ c ∈ db.cards, c.status = CardStatus.ACTIVE →
      c.uidHash = sha256 (jsToUpperCase u) → c.userId = A) :
    (processEnrollmentScan sha256 now db u).1.success = true
    ∧ (processEnrollmentScan sha256 now db u).2.door.enrollmentMode = false
    ∧ (processEnrollmentScan sha256 now db u).2.door.enrollmentUserId = none
    ∧ (processEnrollmentScan sha256 now db u).2.logs = db.logs ++
        [⟨db.door.id, some A, "enrollment_success", some (jsToUpperCase u),
          "enrollment", now⟩]
    ∧ (((processEnrollmentScan sha256 now db u).2.cards.filter
          (fun c => c.userId == A)).map
          (fun c => (c.uid, c.uidHash, c.status)))
        = [(jsToUpperCase u, sha256 (jsToUpperCase u), CardStatus.ACTIVE)]
    ∧ (∀ c ∈ db.cards, c.userId ≠ A →
        c.uidHash = sha256 (jsToUpperCase u) →
        c ∉ (processEnrollmentScan sha256 now db u).2.cards)
    ∧ (∀ c ∈ db.cards, c.userId ≠ A →
        c.uidHash ≠ sha256 (jsToUpperCase u) →
        c ∈ (processEnrollmentScan sha256 now db u).2.cards)
    ∧ (∀ c ∈ db.cards, c.userId = A →
        c ∉ (processEnrollmentScan sha256 now db u).2.cards) := by
  have hnone : db.cards.find? (fun c =>
      c.uidHash == sha256 (jsToUpperCase u) &&
      c.status == CardStatus.ACTIVE && c.userId != A) = none := by
    rw [List.find?_eq_none]
    intro c hc hpc
    simp only [Bool.and_eq_true, beq_iff_eq, bne_iff_ne, ne_eq] at hpc
    exact hpc.2 (hNoConflict c hc hpc.1.2 hpc.1.1)
  simp only [processEnrollmentScan, hMode, hTarget, hnone]
  refine ⟨by trivial, by trivial, by trivial, by trivial, ?_, ?_, ?_, ?_⟩
  · rw [List.filter_append]
    have hnil : List.filter (fun c => c.userId == A)
        (List.filter (fun c => !(c.userId == A))
          (List.filter (fun c =>
            !(c.uidHash == sha256 (jsToUpperCase u) && c.userId != A))
            db.cards)) = [] := by
      rw [List.filter_eq_nil_iff]
      intro c hc
      have h2 := (List.mem_filter.mp hc).2
      simp at h2
      simp [h2]
    rw [hnil]
    simp
  · intro c hcmem hcuser hchash hcontra
    rcases List.mem_append.mp hcontra with hin | hin
    · have h2 := (List.mem_filter.mp (List.mem_filter.mp hin).1).2
      simp [hchash, hcuser] at h2
    · rw [List.mem_singleton] at hin
      have hid := id_lt_nextCardId hcmem
      have hcid : c.id = nextCardId db.cards := by rw [hin]
      omega
  · intro c hcmem hcuser hchash
    apply List.mem_append_left
    apply List.mem_filter.mpr
    refine ⟨List.mem_filter.mpr ⟨hcmem, ?_⟩, ?_⟩
    · simp [hchash]
    · simp [hcuser]
  · intro c hcmem hcuser hcontra
    rcases List.mem_append.mp hcontra with hin | hin
    · have h2 := (List.mem_filter.mp hin).2
      simp [hcuser] at h2
    · rw [List.mem_singleton] at hin
      have hid := id_lt_nextCardId hcmem
      have hcid : c.id = nextCardId db.cards := by rw [hin]
      omega

/-- Sample store for the C5 witness: enrolling user 7 with a stale REVOKED
card of bob sharing the digest and a prior card of user 7 itself. -/
def dbC5 : DB :=
  { door := ⟨1, "ph", true, some 7⟩,
    users := [⟨2, "bob", "USER"⟩, ⟨7, "eve", "USER"⟩],
    cards := [⟨10, 1, 2, "AAAA", "AAAA", CardStatus.REVOKED⟩,
              ⟨11, 1, 7, "BBBB", "BBBB", CardStatus.ACTIVE⟩],
    logs := [] }

theorem enrollment_success_path_witness :
    (processEnrollmentScan (fun s => s) 5 dbC5 "aaaa").1.success = true
    ∧ (((processEnrollmentScan (fun s => s) 5 dbC5 "aaaa").2.cards.filter
          (fun c => c.userId == 7)).map
          (fun c => (c.uid, c.uidHash, c.status)))
        = [(jsToUpperCase "aaaa", (fun s : String => s) (jsToUpperCase "aaaa"),
            CardStatus.ACTIVE)] := by
  have h := enrollment_success_path (fun s => s) 5 dbC5 "aaaa" 7
    (by decide) (by decide) (by decide)
  exact ⟨h.1, h.2.2.2.2.1⟩

theorem revokeOne_fields (cid : Nat) (x : RfidCard) :
    ((if x.id == cid then { x with status := CardStatus.REVOKED } else x).userId
        = x.userId)
    ∧ ((if x.id == cid then { x with status := CardStatus.REVOKED } else x).uidHash
        = x.uidHash)
    ∧ ((if x.id == cid then { x with status := CardStatus.REVOKED } else x).status
        = CardStatus.ACTIVE → x.status = CardStatus.ACTIVE) := by
  by_cases h : (x.id == cid) = true <;> simp [h]

theorem activeUnique_revoke_map {cards : List RfidCard} (cid : Nat)
    (hInv : ActiveUnique cards) :
    ActiveUnique (cards.map (fun c =>
      if c.id == cid then { c with status := CardStatus.REVOKED } else c)) := by
  rw [ActiveUnique, List.pairwise_map]
  apply hInv.imp
  intro a b hab hfa hfb
  obtain ⟨h1, h2⟩ :=
    hab ((revokeOne_fields cid a).2.2 hfa) ((revokeOne_fields cid b).2.2 hfb)
  constructor
  · rw [(revokeOne_fields cid a).1, (revokeOne_fields cid b).1]
    exact h1
  · rw [(revokeOne_fields cid a).2.1, (revokeOne_fields cid b).2.1]
    exact h2

/-- C6: each card-mutating operation — enrollment scan processing, manual
card addition, per-user revocation and per-card removal — preserves the
invariant that the card table holds at most one ACTIVE card per user and at
most one ACTIVE card per UID digest. -/
theorem card_ops_preserve_active_unique (sha256 : String → String) (now : Nat)
    (db : DB) (uid : String) (userId cardId : Nat) (uid2 : String)
    (hInv : ActiveUnique db.cards) :
    ActiveUnique (processEnrollmentScan sha256 now db uid).2.cards
    ∧ (∀ card db2, addRfidCard sha256 db userId uid2 = Except.ok (card, db2) →
        ActiveUnique db2.cards)
    ∧ (∀ db2, revokeUserCard db userId = Except.ok db2 →
        ActiveUnique db2.cards)
    ∧ (∀ db2, removeRfidCard db cardId = Except.ok db2 →
        ActiveUnique db2.cards) := by
  refine ⟨?_, ?_, ?_, ?_⟩
  · unfold processEnrollmentScan
    cases hmode : db.door.enrollmentMode with
    | false => exact hInv
    | true =>
      cases htarget : db.door.enrollmentUserId with
      | none => exact hInv
      | some A =>
        simp only
        cases hf : db.cards.find? (fun c =>
            c.uidHash == sha256 (jsToUpperCase uid) &&
            c.status == CardStatus.ACTIVE && c.userId != A) with
        | some existing => exact hInv
        | none =>
          simp only
          rw [ActiveUnique, List.pairwise_append]
          refine ⟨(hInv.filter _).filter _, by simp, ?_⟩
          intro a ha b hb
          rw [List.mem_singleton] at hb
          subst hb
          have h1 : a.userId ≠ A := by
            have := (List.mem_filter.mp ha).2
            simpa using this
          have h2 := (List.mem_filter.mp (List.mem_filter.mp ha).1).2
          intro _ _
          refine ⟨h1, ?_⟩
          intro heq
          simp only at heq
          simp [heq, h1] at h2
  · intro card db2 hok
    simp only [addRfidCard] at hok
    split_ifs at hok with h1 h2
    simp only [Except.ok.injEq, Prod.mk.injEq] at hok
    obtain ⟨hcard, hdb2⟩ := hok
    subst hdb2
    simp only
    rw [ActiveUnique, List.pairwise_append]
    refine ⟨hInv, by simp, ?_⟩
    intro a ha b hb
    rw [List.mem_singleton] at hb
    subst hb
    intro hsa _
    rw [List.find?_isSome] at h1 h2
    constructor
    · intro habs
      exact h1 ⟨a, ha, by simp [habs, hsa]⟩
    · intro habs
      simp only at habs
      exact h2 ⟨a, ha, by simp [habs, hsa]⟩
  · intro db2 hok
    unfold revokeUserCard at hok
    cases hfind : db.cards.find? (fun c => c.userId == userId &&
        c.status == CardStatus.ACTIVE) with
    | none => rw [hfind] at hok; cases hok
    | some card =>
      rw [hfind] at hok
      simp only [Except.ok.injEq] at hok
      subst hok
      exact activeUnique_revoke_map card.id hInv
  · intro db2 hok
    unfold removeRfidCard at hok
    split_ifs at hok with h1
    simp only [Except.ok.injEq] at hok
    subst hok
    exact activeUnique_revoke_map cardId hInv

/-- Sample store for the C6 witness. -/
def dbC6 : DB :=
  { door := ⟨1, "ph", true, some 7⟩,
    users := [⟨2, "bob", "USER"⟩, ⟨7, "eve", "USER"⟩],
    cards := [⟨10, 1, 2, "AAAA", "AAAA", CardStatus.ACTIVE⟩],
    logs := [] }

theorem card_ops_preserve_active_unique_witness :
    ActiveUnique dbC6.cards
    ∧ ActiveUnique (processEnrollmentScan (fun s => s) 0 dbC6 "cccc").2.cards :=
  ⟨by decide,
    (card_ops_preserve_active_unique (fun s => s) 0 dbC6 "cccc" 7 10 "dddd"
      (by decide)).1⟩

theorem pinShapeBad_eq_not_spec (s : Option String) :
    pinShapeBad s = !(specFourDigits s) := by
  cases s with
  | none => rfl
  | some str =>
    simp only [pinShapeBad, specFourDigits]
    by_cases h4 : str.length = 4
    · have hne : str ≠ "" := fun he => by simp [he] at h4
      simp [h4, hne]
    · have hb : (str.length == 4) = false := by simpa using h4
      have hn : (str.length != 4) = true := by simpa [bne_iff_ne] using h4
      simp [hb, hn]

/-- C8: the PIN-update route rejects with 400 before any digest work when
either field is not exactly 4 decimal digits (the outcome is then
independent of the digest function and the store is untouched), rejects
with 401 leaving the stored digest unchanged when the current PIN's digest
mismatches, and otherwise stores the digest of the new PIN and publishes it
exactly once on `door/config/pin`. -/
theorem patch_pin_route_correct (sha256 : String → String) (db : DB)
    (adminName : String) (pin currentPin : Option String) :
    ((specFourDigits pin = false ∨ specFourDigits currentPin = false) →
      (patchPinRoute sha256 db adminName pin currentPin).status = 400
      ∧ (patchPinRoute sha256 db adminName pin currentPin).db = db
      ∧ (patchPinRoute sha256 db adminName pin currentPin).pinConfigMsgs = []
      ∧ ∀ sha2 : String → String,
          patchPinRoute sha2 db adminName pin currentPin
            = patchPinRoute sha256 db adminName pin currentPin)
    ∧ (specFourDigits pin = true → specFourDigits currentPin = true →
        sha256 (currentPin.getD "") ≠ db.door.pinHash →
        (patchPinRoute sha256 db adminName pin currentPin).status = 401
        ∧ (patchPinRoute sha256 db adminName pin currentPin).db = db
        ∧ (patchPinRoute sha256 db adminName pin currentPin).pinConfigMsgs = [])
    ∧ (specFourDigits pin = true → specFourDigits currentPin = true →
        sha256 (currentPin.getD "") = db.door.pinHash →
        (patchPinRoute sha256 db adminName pin currentPin).status = 200
        ∧ (patchPinRoute sha256 db adminName pin currentPin).db.door.pinHash
            = sha256 (pin.getD "")
        ∧ (patchPinRoute sha256 db adminName pin currentPin).pinConfigMsgs
            = [sha256 (pin.getD "")]) := by
  refine ⟨?_, ?_, ?_⟩
  · intro hbad
    have hcases : pinShapeBad currentPin = true ∨
        (pinShapeBad currentPin = false ∧ pinShapeBad pin = true) := by
      rcases hbad with h | h
      · by_cases hc : pinShapeBad currentPin = true
        · exact Or.inl hc
        · refine Or.inr ⟨by simpa using hc, ?_⟩
          rw [pinShapeBad_eq_not_spec, h]
          rfl
      · refine Or.inl ?_
        rw [pinShapeBad_eq_not_spec, h]
        rfl
    rcases hcases with h | ⟨h1, h2⟩
    · simp [patchPinRoute, h]
    · simp [patchPinRoute, h1, h2]
  · intro hp hc hne
    have h1 : pinShapeBad currentPin = false := by
      rw [pinShapeBad_eq_not_spec, hc]
      rfl
    have h2 : pinShapeBad pin = false := by
      rw [pinShapeBad_eq_not_spec, hp]
      rfl
    have hupd : updateDoorPin sha256 db (pin.getD "") (currentPin.getD "")
        = Except.error "Mã PIN hiện tại không đúng" := by
      unfold updateDoorPin
      have hbne : (db.door.pinHash != sha256 (currentPin.getD "")) = true := by
        rw [bne_iff_ne]
        exact fun he => hne he.symm
      simp [hbne]
    simp [patchPinRoute, h1, h2, hupd]
  · intro hp hc heq
    have h1 : pinShapeBad currentPin = false := by
      rw [pinShapeBad_eq_not_spec, hc]
      rfl
    have h2 : pinShapeBad pin = false := by
      rw [pinShapeBad_eq_not_spec, hp]
      rfl
    have hupd : updateDoorPin sha256 db (pin.getD "") (currentPin.getD "")
        = Except.ok { db with door :=
            { db.door with pinHash := sha256 (pin.getD "") } } := by
      unfold updateDoorPin
      have hbne : (db.door.pinHash != sha256 (currentPin.getD "")) = false := by
        rw [bne_eq_false_iff_eq]
        exact heq.symm
      simp [hbne]
    simp [patchPinRoute, h1, h2, hupd]

/-- Sample store for the C8 witness: the stored digest equals the identity
digest of PIN `1234`. -/
def dbC8 : DB :=
  { door := ⟨1, "1234", false, none⟩, users := [], cards := [], logs := [] }

theorem patch_pin_route_correct_witness :
    specFourDigits (some "5678") = true
    ∧ specFourDigits (some "1234") = true
    ∧ (patchPinRoute (fun s => s) dbC8 "root"
        (some "5678") (some "1234")).status = 200
    ∧ (patchPinRoute (fun s => s) dbC8 "root"
        (some "5678") (some "1234")).db.door.pinHash = "5678" := by
  have h := (patch_pin_route_correct (fun s => s) dbC8 "root"
    (some "5678") (some "1234")).2.2 (by decide) (by decide) (by decide)
  exact ⟨by decide, by decide, h.1, h.2.1⟩

theorem jsToUpperCase_length (s : String) :
    (jsToUpperCase s).length = s.length := by
  cases s with
  | mk data =>
    show (data.map Char.toUpper).length = data.length
    simp

theorem string_eq_empty_of_length (s : String) (h : s.length = 0) : s = "" := by
  cases s with
  | mk data =>
    cases data with
    | nil => rfl
    | cons c t =>
      have h2 : (c :: t).length = 0 := h
      simp at h2

/-- C9: RFID UID handling is case-insensitive at every entry point — the
enrollment scan, authentication by raw UID, and access-log user resolution
each uppercase the UID before digesting, so two UIDs with the same
uppercasing produce the identical enrollment outcome (stored uid and digest
included), the identical authentication outcome, and the identical resolved
log user. -/
theorem uid_case_insensitivity (sha256 : String → String) (now : Nat)
    (db : DB) (u1 u2 ev meth : String)
    (hcase : jsToUpperCase u1 = jsToUpperCase u2) :
    processEnrollmentScan sha256 now db u1
        = processEnrollmentScan sha256 now db u2
    ∧ ((handleRfidAuth sha256 now db ⟨none, some u1⟩).1.rfidResults.map
          (fun m => (m.allow, m.reason, m.username))
        = (handleRfidAuth sha256 now db ⟨none, some u2⟩).1.rfidResults.map
          (fun m => (m.allow, m.reason, m.username)))
    ∧ ((handleRfidAuth sha256 now db ⟨none, some u1⟩).1.logsWritten.map
          (fun l => (l.event, l.userId, l.method))
        = (handleRfidAuth sha256 now db ⟨none, some u2⟩).1.logsWritten.map
          (fun l => (l.event, l.userId, l.method)))
    ∧ (createAccessLog sha256 now db ev (some u1) meth none).1.userId
        = (createAccessLog sha256 now db ev (some u2) meth none).1.userId := by
  have hlen : u1.length = u2.length := by
    rw [← jsToUpperCase_length u1, ← jsToUpperCase_length u2, hcase]
  by_cases hu1 : u1 = ""
  · have hu2 : u2 = "" := by
      apply string_eq_empty_of_length
      rw [← hlen, hu1]
      rfl
    subst hu1
    subst hu2
    exact ⟨rfl, rfl, rfl, rfl⟩
  · have hu2 : u2 ≠ "" := by
      intro he
      apply hu1
      apply string_eq_empty_of_length
      rw [hlen, he]
      rfl
    have hb1 : (u1 == "") = false := by simpa using hu1
    have hb2 : (u2 == "") = false := by simpa using hu2
    refine ⟨?_, ?_, ?_, ?_⟩
    · unfold processEnrollmentScan
      rw [hcase]
    · simp [handleRfidAuth, createAccessLog, strTruthy, hb1, hb2, hcase]
    · simp [handleRfidAuth, createAccessLog, strTruthy, hb1, hb2, hcase]
    · simp [createAccessLog, strTruthy, hb1, hb2, hcase]

/-- Sample store for the C9 witness. -/
def dbC9 : DB :=
  { door := ⟨1, "ph", true, some 7⟩,
    users := [⟨7, "eve", "USER"⟩],
    cards := [],
    logs := [] }

theorem uid_case_insensitivity_witness :
    jsToUpperCase "ab" = jsToUpperCase "AB"
    ∧ processEnrollmentScan (fun s => s) 0 dbC9 "ab"
        = processEnrollmentScan (fun s => s) 0 dbC9 "AB" :=
  ⟨by decide,
    (uid_case_insensitivity (fun s => s) 0 dbC9 "ab" "AB" "e" "m"
      (by decide)).1⟩

end SmartHome
